import Mathlib

/-!
Shallow embedding of the invocation-encoding layer of the microkit system
image build tool (`src/tool/microkit/src/sel4.rs`).

Machine integers (`u64`, `u32`, `u8`) are modelled as `Nat`; since the byte
serialisation (`toLeBytes`) truncates to 8 bytes, word values behave as
`u64` on the wire.  Functions that can terminate the build (Rust `assert`,
`unwrap` or an explicit process abort) are modelled as `Option`-returning
functions, with `none` for the aborting path.
-/

namespace Microkit

/-- The three target architectures (`enum Arch`). -/
inductive Arch where
  | Aarch64
  | Riscv64
  | X86_64
deriving DecidableEq

/-- RISC-V virtual memory systems (`enum RiscvVirtualMemory`). -/
inductive RiscvVirtualMemory where
  | Sv39
deriving DecidableEq

/-- Build configuration (`struct Config`).  The `invocations_labels` JSON
table is omitted: it is read only by `Invocation::new`, which is not part
of the embedding (the embedded `Invocation` carries its resolved
`label_raw` directly, exactly as the Rust struct does). -/
structure Config where
  arch : Arch
  word_size : Nat := 64
  minimum_page_size : Nat := 0x1000
  paddr_user_device_top : Nat := 0
  kernel_frame_size : Nat := 0
  init_cnode_bits : Nat := 0
  cap_address_bits : Nat := 64
  fan_out_limit : Nat := 0
  hypervisor : Bool := false
  benchmark : Bool := false
  fpu : Bool := false
  arm_pa_size_bits : Option Nat := none
  arm_smc : Option Bool := none
  riscv_pt_levels : Option RiscvVirtualMemory := none
  x86_xsave_size : Option Nat := none

/-- `Config::user_top`.  The Rust function `unwrap`s `arm_pa_size_bits`
under the hypervisor and aborts on a width other than 40 or 44; both
aborting paths are `none`. -/
def Config.user_top (c : Config) : Option Nat :=
  match c.arch with
  | Arch.Aarch64 =>
    if c.hypervisor then
      match c.arm_pa_size_bits with
      | some pa =>
        if pa = 40 then some 0x10000000000
        else if pa = 44 then some 0x100000000000
        else none
      | none => none
    else some 0x800000000000
  | Arch.Riscv64 => some 0x0000003ffffff000
  | Arch.X86_64 => some 0x7ffffffff000

/-- `Config::page_sizes`: identical on all three architectures. -/
def Config.page_sizes (c : Config) : List Nat :=
  match c.arch with
  | Arch.Aarch64 => [0x1000, 0x200000]
  | Arch.Riscv64 => [0x1000, 0x200000]
  | Arch.X86_64 => [0x1000, 0x200000]

/-- The scan of `Config::optimal_page_size`: the Rust loop walks the
page-size array from the last entry down to the first, returning the
first entry that divides `size`; the embedded scan walks the reversed
list. -/
def findAlignedPageSize (size : Nat) : List Nat → Option Nat
  | [] => none
  | p :: rest => if size % p = 0 then some p else findAlignedPageSize size rest

/-- `Config::optimal_page_size`.  The fall-through abort ("size is not
aligned to minimum page size") is `none`. -/
def Config.optimal_page_size (c : Config) (size : Nat) : Option Nat :=
  findAlignedPageSize size c.page_sizes.reverse

/-- Kernel object kinds (`enum ObjectType`). -/
inductive ObjectType where
  | Untyped
  | Tcb
  | Endpoint
  | Notification
  | CNode
  | SchedContext
  | Reply
  | HugePage
  | VSpace
  | SmallPage
  | LargePage
  | PageTable
  | Vcpu
  | PageDirectory
  | PdPt
  | Pml4
  | IOPageTable
  | EptPml4
  | EptPdPt
  | EptPageDirectory
  | EptPageTable
deriving DecidableEq

/-- `ObjectType::fixed_size_bits`.  The Rust function returns
`Option<u64>` but can also abort (VSpace under an unmodelled ARM PA
width, vCPU on RISC-V); the outer `Option` models the abort, the inner
one the returned Rust `Option`. -/
def ObjectType.fixed_size_bits (ot : ObjectType) (c : Config) : Option (Option Nat) :=
  match ot with
  | ObjectType.Tcb =>
    match c.arch with
    | Arch.Aarch64 => some (some 11)
    | Arch.Riscv64 => if c.fpu then some (some 11) else some (some 10)
    | Arch.X86_64 =>
      match c.x86_xsave_size with
      | some size => if size ≥ 832 then some (some 12) else some (some 11)
      | none => some (some 11)
  | ObjectType.Endpoint => some (some 4)
  | ObjectType.Notification => some (some 6)
  | ObjectType.Reply => some (some 5)
  | ObjectType.VSpace =>
    match c.arch with
    | Arch.Aarch64 =>
      if c.hypervisor then
        match c.arm_pa_size_bits with
        | some pa =>
          if pa = 40 then some (some 13)
          else if pa = 44 then some (some 12)
          else none
        | none => none
      else some (some 12)
    | Arch.Riscv64 => some (some 12)
    | Arch.X86_64 => some (some 12)
  | ObjectType.PageTable => some (some 12)
  | ObjectType.HugePage => some (some 30)
  | ObjectType.LargePage => some (some 21)
  | ObjectType.SmallPage => some (some 12)
  | ObjectType.Vcpu =>
    match c.arch with
    | Arch.Aarch64 => some (some 12)
    | Arch.X86_64 => some (some 14)
    | Arch.Riscv64 => none
  | ObjectType.PageDirectory => some (some 12)
  | ObjectType.PdPt => some (some 12)
  | ObjectType.Pml4 => some (some 12)
  | ObjectType.IOPageTable => some (some 12)
  | ObjectType.EptPml4 => some (some 12)
  | ObjectType.EptPdPt => some (some 12)
  | ObjectType.EptPageDirectory => some (some 12)
  | ObjectType.EptPageTable => some (some 12)
  | ObjectType.Untyped => some none
  | ObjectType.CNode => some none
  | ObjectType.SchedContext => some none

/-- `ObjectType::value`: the kernel's raw numeric object-type identifier.
The abort for a vCPU on RISC-V is `none`. -/
def ObjectType.value (ot : ObjectType) (c : Config) : Option Nat :=
  match ot with
  | ObjectType.Untyped => some 0
  | ObjectType.Tcb => some 1
  | ObjectType.Endpoint => some 2
  | ObjectType.Notification => some 3
  | ObjectType.CNode => some 4
  | ObjectType.SchedContext => some 5
  | ObjectType.Reply => some 6
  | ObjectType.HugePage =>
    match c.arch with
    | Arch.Aarch64 => some 7
    | Arch.Riscv64 => some 7
    | Arch.X86_64 => some 9
  | ObjectType.VSpace =>
    match c.arch with
    | Arch.Aarch64 => some 8
    | Arch.Riscv64 => some 10
    | Arch.X86_64 => some 8
  | ObjectType.SmallPage =>
    match c.arch with
    | Arch.Aarch64 => some 9
    | Arch.Riscv64 => some 8
    | Arch.X86_64 => some 10
  | ObjectType.LargePage =>
    match c.arch with
    | Arch.Aarch64 => some 10
    | Arch.Riscv64 => some 9
    | Arch.X86_64 => some 11
  | ObjectType.PageTable =>
    match c.arch with
    | Arch.Aarch64 => some 11
    | Arch.Riscv64 => some 10
    | Arch.X86_64 => some 12
  | ObjectType.Vcpu =>
    match c.arch with
    | Arch.Aarch64 => some 12
    | Arch.X86_64 => some 15
    | Arch.Riscv64 => none
  | ObjectType.PdPt => some 7
  | ObjectType.Pml4 => some 8
  | ObjectType.PageDirectory => some 13
  | ObjectType.IOPageTable => some 14
  | ObjectType.EptPml4 => some 16
  | ObjectType.EptPdPt => some 17
  | ObjectType.EptPageDirectory => some 18
  | ObjectType.EptPageTable => some 19

/-- `enum IrqTrigger` with its `repr(u32)` values. -/
inductive IrqTrigger where
  | Level
  | Edge
deriving DecidableEq

/-- The numeric value of an `IrqTrigger` (its `repr(u32)` discriminant,
used by `trigger as u64` in `get_args`). -/
def IrqTrigger.toNat : IrqTrigger → Nat
  | IrqTrigger.Level => 0
  | IrqTrigger.Edge => 1

/-- `struct Riscv64Regs`: the RISC-V register file, 32 entries. -/
structure Riscv64Regs where
  pc : Nat := 0
  ra : Nat := 0
  sp : Nat := 0
  gp : Nat := 0
  s0 : Nat := 0
  s1 : Nat := 0
  s2 : Nat := 0
  s3 : Nat := 0
  s4 : Nat := 0
  s5 : Nat := 0
  s6 : Nat := 0
  s7 : Nat := 0
  s8 : Nat := 0
  s9 : Nat := 0
  s10 : Nat := 0
  s11 : Nat := 0
  a0 : Nat := 0
  a1 : Nat := 0
  a2 : Nat := 0
  a3 : Nat := 0
  a4 : Nat := 0
  a5 : Nat := 0
  a6 : Nat := 0
  a7 : Nat := 0
  t0 : Nat := 0
  t1 : Nat := 0
  t2 : Nat := 0
  t3 : Nat := 0
  t4 : Nat := 0
  t5 : Nat := 0
  t6 : Nat := 0
  tp : Nat := 0
deriving DecidableEq

/-- `Riscv64Regs::field_names`: the canonical (name, value) order the
kernel consumes positionally. -/
def Riscv64Regs.field_names (r : Riscv64Regs) : List (String × Nat) :=
  [("pc", r.pc), ("ra", r.ra), ("sp", r.sp), ("gp", r.gp),
   ("s0", r.s0), ("s1", r.s1), ("s2", r.s2), ("s3", r.s3),
   ("s4", r.s4), ("s5", r.s5), ("s6", r.s6), ("s7", r.s7),
   ("s8", r.s8), ("s9", r.s9), ("s10", r.s10), ("s11", r.s11),
   ("a0", r.a0), ("a1", r.a1), ("a2", r.a2), ("a3", r.a3),
   ("a4", r.a4), ("a5", r.a5), ("a6", r.a6), ("a7", r.a7),
   ("t0", r.t0), ("t1", r.t1), ("t2", r.t2), ("t3", r.t3),
   ("t4", r.t4), ("t5", r.t5), ("t6", r.t6), ("tp", r.tp)]

/-- `enum InvocationArgs`: one variant per supported kernel operation,
with the fields in the order of the Rust declaration. -/
inductive InvocationArgs where
  | UntypedRetype (untyped : Nat) (object_type : ObjectType)
      (size_bits root node_index node_depth node_offset num_objects : Nat)
  | TcbSetSchedParams (tcb authority mcp priority sched_context fault_ep : Nat)
  | TcbSetSpace (tcb fault_ep cspace_root cspace_root_data vspace_root vspace_root_data : Nat)
  | TcbSetIpcBuffer (tcb buffer buffer_frame : Nat)
  | TcbResume (tcb : Nat)
  | TcbWriteRegisters (tcb : Nat) (resume : Bool) (arch_flags : Nat) (count : Nat)
      (regs : List (String × Nat))
  | TcbBindNotification (tcb notification : Nat)
  | AsidPoolAssign (asid_pool vspace : Nat)
  | IrqControlGetTrigger (irq_control irq : Nat) (trigger : IrqTrigger)
      (dest_root dest_index dest_depth : Nat)
  | IrqHandlerSetNotification (irq_handler notification : Nat)
  | IoPortControlIssue (ioport_control first_port last_port dest_root dest_index dest_depth : Nat)
  | PageUpperDirectoryMap (page_upper_directory vspace vaddr attr : Nat)
  | PageDirectoryMap (page_directory vspace vaddr attr : Nat)
  | PageTableMap (page_table vspace vaddr attr : Nat)
  | PageMap (page vspace vaddr rights attr : Nat)
  | CnodeCopy (cnode dest_index dest_depth src_root src_obj src_depth rights : Nat)
  | CnodeMint (cnode dest_index dest_depth src_root src_obj src_depth rights badge : Nat)
  | SchedControlConfigureFlags
      (sched_control sched_context budget period extra_refills badge flags : Nat)
  | ArmVcpuSetTcb (vcpu tcb : Nat)
deriving DecidableEq

/-- The variant tag of an `InvocationArgs` value, the embedding of
`std::mem::discriminant`. -/
def InvocationArgs.discriminant : InvocationArgs → Nat
  | InvocationArgs.UntypedRetype .. => 0
  | InvocationArgs.TcbSetSchedParams .. => 1
  | InvocationArgs.TcbSetSpace .. => 2
  | InvocationArgs.TcbSetIpcBuffer .. => 3
  | InvocationArgs.TcbResume .. => 4
  | InvocationArgs.TcbWriteRegisters .. => 5
  | InvocationArgs.TcbBindNotification .. => 6
  | InvocationArgs.AsidPoolAssign .. => 7
  | InvocationArgs.IrqControlGetTrigger .. => 8
  | InvocationArgs.IrqHandlerSetNotification .. => 9
  | InvocationArgs.IoPortControlIssue .. => 10
  | InvocationArgs.PageUpperDirectoryMap .. => 11
  | InvocationArgs.PageDirectoryMap .. => 12
  | InvocationArgs.PageTableMap .. => 13
  | InvocationArgs.PageMap .. => 14
  | InvocationArgs.CnodeCopy .. => 15
  | InvocationArgs.CnodeMint .. => 16
  | InvocationArgs.SchedControlConfigureFlags .. => 17
  | InvocationArgs.ArmVcpuSetTcb .. => 18

/-- `InvocationArgs::get_args`: decompose a variant into
`(service, plain args, extra caps)`, the Rust tuple order.  The only
aborting path is `ObjectType::value` inside `UntypedRetype` (vCPU on
RISC-V). -/
def InvocationArgs.get_args (a : InvocationArgs) (c : Config) :
    Option (Nat × List Nat × List Nat) :=
  match a with
  | InvocationArgs.UntypedRetype untyped object_type size_bits root node_index
      node_depth node_offset num_objects =>
    match object_type.value c with
    | some v =>
      some (untyped,
        [v, size_bits, node_index, node_depth, node_offset, num_objects],
        [root])
    | none => none
  | InvocationArgs.TcbSetSchedParams tcb authority mcp priority sched_context fault_ep =>
    some (tcb, [mcp, priority], [authority, sched_context, fault_ep])
  | InvocationArgs.TcbSetSpace tcb fault_ep cspace_root cspace_root_data
      vspace_root vspace_root_data =>
    some (tcb, [cspace_root_data, vspace_root_data], [fault_ep, cspace_root, vspace_root])
  | InvocationArgs.TcbSetIpcBuffer tcb buffer buffer_frame =>
    some (tcb, [buffer], [buffer_frame])
  | InvocationArgs.TcbResume tcb => some (tcb, [], [])
  | InvocationArgs.TcbWriteRegisters tcb resume arch_flags count regs =>
    some (tcb,
      (arch_flags <<< 8 ||| (if resume then 1 else 0)) :: count :: regs.map Prod.snd,
      [])
  | InvocationArgs.TcbBindNotification tcb notification =>
    some (tcb, [], [notification])
  | InvocationArgs.AsidPoolAssign asid_pool vspace =>
    some (asid_pool, [], [vspace])
  | InvocationArgs.IrqControlGetTrigger irq_control irq trigger dest_root
      dest_index dest_depth =>
    some (irq_control, [irq, trigger.toNat, dest_index, dest_depth], [dest_root])
  | InvocationArgs.IrqHandlerSetNotification irq_handler notification =>
    some (irq_handler, [], [notification])
  | InvocationArgs.IoPortControlIssue ioport_control first_port last_port dest_root
      dest_index dest_depth =>
    some (ioport_control, [first_port, last_port, dest_index, dest_depth], [dest_root])
  | InvocationArgs.PageUpperDirectoryMap page_upper_directory vspace vaddr attr =>
    some (page_upper_directory, [vaddr, attr], [vspace])
  | InvocationArgs.PageDirectoryMap page_directory vspace vaddr attr =>
    some (page_directory, [vaddr, attr], [vspace])
  | InvocationArgs.PageTableMap page_table vspace vaddr attr =>
    some (page_table, [vaddr, attr], [vspace])
  | InvocationArgs.PageMap page vspace vaddr rights attr =>
    some (page, [vaddr, rights, attr], [vspace])
  | InvocationArgs.CnodeCopy cnode dest_index dest_depth src_root src_obj src_depth rights =>
    some (cnode, [dest_index, dest_depth, src_obj, src_depth, rights], [src_root])
  | InvocationArgs.CnodeMint cnode dest_index dest_depth src_root src_obj src_depth
      rights badge =>
    some (cnode, [dest_index, dest_depth, src_obj, src_depth, rights, badge], [src_root])
  | InvocationArgs.SchedControlConfigureFlags sched_control sched_context budget period
      extra_refills badge flags =>
    some (sched_control, [budget, period, extra_refills, badge, flags], [sched_context])
  | InvocationArgs.ArmVcpuSetTcb vcpu tcb => some (vcpu, [], [tcb])

/-- `struct Invocation`: a resolved raw label, the argument payload and
the optional repeat descriptor (the Rust field is also named `repeat`;
it is renamed here because the attach method keeps that name). -/
structure Invocation where
  label_raw : Nat
  args : InvocationArgs
  repeatDesc : Option (Nat × InvocationArgs) := none
deriving DecidableEq

/-- `u64::to_le_bytes`: the eight little-endian bytes of a word
(truncating at 2^64 exactly as the `u64` does). -/
def toLeBytes (x : Nat) : List Nat :=
  [x % 256, x / 2 ^ 8 % 256, x / 2 ^ 16 % 256, x / 2 ^ 24 % 256,
   x / 2 ^ 32 % 256, x / 2 ^ 40 % 256, x / 2 ^ 48 % 256, x / 2 ^ 56 % 256]

/-- The Rust `for arg in ws { data.extend(arg.to_le_bytes()) }` loop:
append each word of `ws`, as little-endian bytes, to `data`. -/
def extendWords (data : List Nat) (ws : List Nat) : List Nat :=
  ws.foldl (fun d w => d ++ toLeBytes w) data

/-- The little-endian byte stream of a word sequence. -/
def wordsLE (ws : List Nat) : List Nat :=
  (ws.map toLeBytes).flatten

/-- Read back the little-endian number stored in a byte list. -/
def leNat (bs : List Nat) : Nat :=
  bs.foldr (fun b acc => b + 256 * acc) 0

/-- The `i`-th 64-bit little-endian word of a byte buffer. -/
def wordAt (out : List Nat) (i : Nat) : Nat :=
  leNat ((out.drop (8 * i)).take 8)

/-- `Invocation::message_info_new` with its four assertions; an assertion
failure is `none`. -/
def Invocation.message_info_new (label caps extra_caps length : Nat) : Option Nat :=
  if label < 2 ^ 50 ∧ caps < 8 ∧ extra_caps < 8 ∧ length < 0x80 then
    some (label <<< 12 ||| caps <<< 9 ||| extra_caps <<< 7 ||| length)
  else none

/-- `Invocation::repeat`: attach a repeat descriptor.  The Rust method
asserts no repeat is attached yet (failure is `none`) and silently drops
a `count ≤ 1` repeat.  No check relates the payload variant to the base
variant. -/
def Invocation.repeat (inv : Invocation) (count : Nat)
    (repeat_args : InvocationArgs) : Option Invocation :=
  if inv.repeatDesc.isNone then
    if count > 1 then
      some { inv with repeatDesc := some (count, repeat_args) }
    else
      some inv
  else
    none

/-- `Invocation::add_raw_invocation`: append the wire encoding of one
invocation to `data`.  Emits the tag word, the service capability, the
extra-capability words, the plain-argument words, and — when a repeat
descriptor is attached — the repeat's service/extra-caps/args with no
second tag word.  The repeat count minus one is OR-ed into bits 32 and
above of the tag.  Aborting paths (`get_args` abort, a `message_info_new`
assertion, the variant-mismatch assertion) are `none`. -/
def Invocation.add_raw_invocation (inv : Invocation) (c : Config)
    (data : List Nat) : Option (List Nat) :=
  match inv.args.get_args c with
  | none => none
  | some (service, args, extra_caps) =>
    match Invocation.message_info_new inv.label_raw 0 extra_caps.length args.length with
    | none => none
    | some tag0 =>
      match inv.repeatDesc with
      | none =>
        some (extendWords (extendWords
          (data ++ toLeBytes tag0 ++ toLeBytes service) extra_caps) args)
      | some (count, rep) =>
        if inv.args.discriminant = rep.discriminant then
          match rep.get_args c with
          | none => none
          | some (repeat_service, repeat_args, repeat_extra_caps) =>
            some (extendWords (extendWords
              ((extendWords (extendWords
                (data ++ toLeBytes (tag0 ||| ((count - 1) <<< 32)) ++ toLeBytes service)
                extra_caps) args)
               ++ toLeBytes repeat_service) repeat_extra_caps) repeat_args)
        else none

/-! ## Helper lemmas -/

theorem wordsLE_cons (w : Nat) (ws : List Nat) :
    wordsLE (w :: ws) = toLeBytes w ++ wordsLE ws := by
  simp [wordsLE]

theorem wordsLE_append (xs ys : List Nat) :
    wordsLE (xs ++ ys) = wordsLE xs ++ wordsLE ys := by
  simp [wordsLE]

theorem extendWords_eq (ws : List Nat) (d : List Nat) :
    extendWords d ws = d ++ wordsLE ws := by
  induction ws generalizing d with
  | nil => simp [extendWords, wordsLE]
  | cons w ws ih =>
    show extendWords (d ++ toLeBytes w) ws = _
    rw [ih, wordsLE_cons, List.append_assoc]

theorem shiftLeft_lor_mod (a b n : Nat) (hb : b < 2 ^ n) :
    (a <<< n ||| b) % 2 ^ n = b := by
  apply Nat.eq_of_testBit_eq
  intro i
  rw [Nat.testBit_mod_two_pow, Nat.testBit_lor, Nat.testBit_shiftLeft]
  by_cases h : i < n
  · have hni : ¬ n ≤ i := by omega
    simp [h, hni]
  · have hb' : b.testBit i = false :=
      Nat.testBit_lt_two_pow
        (Nat.lt_of_lt_of_le hb (Nat.pow_le_pow_right (by omega) (by omega)))
    simp [h, hb']

theorem shiftLeft_lor_shiftRight (a b n : Nat) (hb : b < 2 ^ n) :
    (a <<< n ||| b) >>> n = a := by
  apply Nat.eq_of_testBit_eq
  intro i
  rw [Nat.testBit_shiftRight, Nat.testBit_lor, Nat.testBit_shiftLeft]
  have hb' : b.testBit (n + i) = false :=
    Nat.testBit_lt_two_pow
      (Nat.lt_of_lt_of_le hb (Nat.pow_le_pow_right (by omega) (by omega)))
  have hle : n ≤ n + i := Nat.le_add_right n i
  have hsub : n + i - n = i := by omega
  simp [hb', hle, hsub]

theorem lor_shiftLeft_distrib (a b n : Nat) :
    (a ||| b) <<< n = a <<< n ||| b <<< n := by
  apply Nat.eq_of_testBit_eq
  intro i
  rw [Nat.testBit_shiftLeft, Nat.testBit_lor, Nat.testBit_lor,
    Nat.testBit_shiftLeft, Nat.testBit_shiftLeft]
  by_cases h : n ≤ i
  · simp [h]
  · simp [h]

theorem shiftLeft_lt_pow (a m k : Nat) (h : a < 2 ^ m) :
    a <<< k < 2 ^ (m + k) := by
  rw [Nat.shiftLeft_eq, Nat.pow_add]
  exact Nat.mul_lt_mul_of_lt_of_le h (Nat.le_refl _) (Nat.two_pow_pos k)

/-- The message-info word, reshaped so the low-bit groups can be split
off with the generic shift lemmas. -/
theorem message_info_shape (label extra_caps length : Nat) :
    label <<< 12 ||| 0 <<< 9 ||| extra_caps <<< 7 ||| length
      = ((label <<< 5 ||| extra_caps) <<< 7) ||| length := by
  rw [Nat.zero_shiftLeft, Nat.or_zero, lor_shiftLeft_distrib, ← Nat.shiftLeft_add]

/-! ## Shared concrete inputs for witnesses and counterexamples -/

def cfgRiscv : Config :=
  { arch := Arch.Riscv64, fpu := true, riscv_pt_levels := some RiscvVirtualMemory.Sv39 }

def cfgArm : Config := { arch := Arch.Aarch64 }

def cfgArmHyp40 : Config :=
  { arch := Arch.Aarch64, hypervisor := true, arm_pa_size_bits := some 40 }

def cfgArmHyp44 : Config :=
  { arch := Arch.Aarch64, hypervisor := true, arm_pa_size_bits := some 44 }

def cfgArmHyp48 : Config :=
  { arch := Arch.Aarch64, hypervisor := true, arm_pa_size_bits := some 48 }

def cfgX86 : Config := { arch := Arch.X86_64 }

def cfgX86Xsave (n : Nat) : Config :=
  { arch := Arch.X86_64, x86_xsave_size := some n }

/-! ## Claims -/

/-- Claim C3: for all `label < 2^50`, `extra_caps < 8`, `length < 128`,
`message_info_new(label, 0, extra_caps, length)` round-trips: bits 0 to 6
of the word recover `length`, bits 7 to 9 recover `extra_caps`, and bits
12 and above recover `label` exactly. -/
theorem c3_message_info_roundtrip (label extra_caps length : Nat)
    (hl : label < 2 ^ 50) (he : extra_caps < 8) (hn : length < 128) :
    ∃ w, Invocation.message_info_new label 0 extra_caps length = some w ∧
      w % 2 ^ 7 = length ∧ (w >>> 7) % 2 ^ 3 = extra_caps ∧ w >>> 12 = label := by
  refine ⟨label <<< 12 ||| 0 <<< 9 ||| extra_caps <<< 7 ||| length, ?_, ?_, ?_, ?_⟩
  · have hcond : label < 2 ^ 50 ∧ (0 : Nat) < 8 ∧ extra_caps < 8 ∧ length < 0x80 :=
      ⟨hl, by omega, he, by omega⟩
    rw [Invocation.message_info_new, if_pos hcond]
  · rw [message_info_shape]
    exact shiftLeft_lor_mod _ _ 7 (by omega)
  · rw [message_info_shape, shiftLeft_lor_shiftRight _ _ 7 (by omega)]
    have h5 : label <<< 5 = (label <<< 2) <<< 3 := by rw [← Nat.shiftLeft_add]
    rw [h5]
    exact shiftLeft_lor_mod _ _ 3 (by omega)
  · rw [message_info_shape, show (12 : Nat) = 7 + 5 from rfl, Nat.shiftRight_add,
      shiftLeft_lor_shiftRight _ _ 7 (by omega),
      shiftLeft_lor_shiftRight _ _ 5 (by omega)]

/-- Witness for C3 at `label = 1000`, `extra_caps = 3`, `length = 5`. -/
theorem c3_witness :
    (1000 : Nat) < 2 ^ 50 ∧ (3 : Nat) < 8 ∧ (5 : Nat) < 128 ∧
    ∃ w, Invocation.message_info_new 1000 0 3 5 = some w ∧
      w % 2 ^ 7 = 5 ∧ (w >>> 7) % 2 ^ 3 = 3 ∧ w >>> 12 = 1000 :=
  ⟨by decide, by decide, by decide,
    c3_message_info_roundtrip 1000 3 5 (by decide) (by decide) (by decide)⟩

/-- Claim C5: `ObjectType::value` returns 8/10/8 for `VSpace` and 9/8/10
for `SmallPage` on Aarch64/Riscv64/X86_64 respectively. -/
theorem c5_object_type_values (c : Config) :
    ObjectType.VSpace.value c
      = some (match c.arch with
              | Arch.Aarch64 => 8
              | Arch.Riscv64 => 10
              | Arch.X86_64 => 8) ∧
    ObjectType.SmallPage.value c
      = some (match c.arch with
              | Arch.Aarch64 => 9
              | Arch.Riscv64 => 8
              | Arch.X86_64 => 10) := by
  cases harch : c.arch <;> simp [ObjectType.value, harch]

/-- Claim C7: `optimal_page_size` returns 0x200000 on nonzero multiples
of 0x200000, 0x1000 on multiples of 0x1000 that are not multiples of
0x200000, and fails on sizes not multiples of 0x1000. -/
theorem c7_optimal_page_size (c : Config) (size : Nat) :
    (size % 0x200000 = 0 → size ≠ 0 → c.optimal_page_size size = some 0x200000) ∧
    (size % 0x1000 = 0 → size % 0x200000 ≠ 0 → c.optimal_page_size size = some 0x1000) ∧
    (size % 0x1000 ≠ 0 → c.optimal_page_size size = none) := by
  refine ⟨fun h2M _ => ?_, fun h4k h2M => ?_, fun h4k => ?_⟩
  · cases harch : c.arch <;>
      simp [Config.optimal_page_size, Config.page_sizes, findAlignedPageSize, harch, h2M]
  · cases harch : c.arch <;>
      simp [Config.optimal_page_size, Config.page_sizes, findAlignedPageSize, harch, h2M, h4k]
  · have h2M : ¬ size % 0x200000 = 0 := by omega
    cases harch : c.arch <;>
      simp [Config.optimal_page_size, Config.page_sizes, findAlignedPageSize, harch, h2M, h4k]

/-- Witness for C7 at sizes 0x400000, 0x3000 and 0x1234. -/
theorem c7_witness :
    cfgRiscv.optimal_page_size 0x400000 = some 0x200000 ∧
    cfgRiscv.optimal_page_size 0x3000 = some 0x1000 ∧
    cfgRiscv.optimal_page_size 0x1234 = none :=
  ⟨(c7_optimal_page_size cfgRiscv 0x400000).1 (by decide) (by decide),
   (c7_optimal_page_size cfgRiscv 0x3000).2.1 (by decide) (by decide),
   (c7_optimal_page_size cfgRiscv 0x1234).2.2 (by decide)⟩

/-- Claim C8: `user_top` is 2^40 / 2^44 on Aarch64 with hypervisor and
PA width 40 / 44, fails on other PA widths under the hypervisor, is 2^47
on Aarch64 without hypervisor, the Sv39 constant 0x3ffffff000 on
Riscv64, and 0x7ffffffff000 on X86_64. -/
theorem c8_user_top (c : Config) :
    (c.arch = Arch.Aarch64 → c.hypervisor = true → c.arm_pa_size_bits = some 40 →
      c.user_top = some (2 ^ 40)) ∧
    (c.arch = Arch.Aarch64 → c.hypervisor = true → c.arm_pa_size_bits = some 44 →
      c.user_top = some (2 ^ 44)) ∧
    (c.arch = Arch.Aarch64 → c.hypervisor = true → c.arm_pa_size_bits ≠ some 40 →
      c.arm_pa_size_bits ≠ some 44 → c.user_top = none) ∧
    (c.arch = Arch.Aarch64 → c.hypervisor = false → c.user_top = some (2 ^ 47)) ∧
    (c.arch = Arch.Riscv64 → c.user_top = some 0x0000003ffffff000) ∧
    (c.arch = Arch.X86_64 → c.user_top = some 0x7ffffffff000) := by
  refine ⟨fun ha hh hpa => ?_, fun ha hh hpa => ?_, fun ha hh h40 h44 => ?_,
    fun ha hh => ?_, fun ha => ?_, fun ha => ?_⟩
  · rw [Config.user_top, ha, hh, hpa]; norm_num
  · rw [Config.user_top, ha, hh, hpa]; norm_num
  · rcases hpa : c.arm_pa_size_bits with _ | pa
    · rw [Config.user_top, ha, hh, hpa]
      simp
    · have hp40 : pa ≠ 40 := by rintro rfl; exact h40 hpa
      have hp44 : pa ≠ 44 := by rintro rfl; exact h44 hpa
      rw [Config.user_top, ha, hh, hpa]
      simp [hp40, hp44]
  · rw [Config.user_top, ha, hh]; norm_num
  · rw [Config.user_top, ha]
  · rw [Config.user_top, ha]

/-- Witness for C8 at concrete configurations for all six cases. -/
theorem c8_witness :
    cfgArmHyp40.user_top = some (2 ^ 40) ∧
    cfgArmHyp44.user_top = some (2 ^ 44) ∧
    cfgArmHyp48.user_top = none ∧
    cfgArm.user_top = some (2 ^ 47) ∧
    cfgRiscv.user_top = some 0x0000003ffffff000 ∧
    cfgX86.user_top = some 0x7ffffffff000 :=
  ⟨(c8_user_top cfgArmHyp40).1 rfl rfl rfl,
   (c8_user_top cfgArmHyp44).2.1 rfl rfl rfl,
   (c8_user_top cfgArmHyp48).2.2.1 rfl rfl (by decide) (by decide),
   (c8_user_top cfgArm).2.2.2.1 rfl rfl,
   (c8_user_top cfgRiscv).2.2.2.2.1 rfl,
   (c8_user_top cfgX86).2.2.2.2.2 rfl⟩

/-- Claim C9: on X86_64, `ObjectType::Tcb.fixed_size_bits` tolerates an
absent `x86_xsave_size` (Some(11)), returns Some(12) for a save area of
at least 832 bytes and Some(11) for a smaller one.  The outer layer of
the result models the abort paths of other object types and is `some`
here. -/
theorem c9_tcb_size_x86 (c : Config) (harch : c.arch = Arch.X86_64) :
    (c.x86_xsave_size = none → ObjectType.Tcb.fixed_size_bits c = some (some 11)) ∧
    (∀ size, c.x86_xsave_size = some size → 832 ≤ size →
      ObjectType.Tcb.fixed_size_bits c = some (some 12)) ∧
    (∀ size, c.x86_xsave_size = some size → size < 832 →
      ObjectType.Tcb.fixed_size_bits c = some (some 11)) := by
  refine ⟨fun hx => ?_, fun size hx hge => ?_, fun size hx hlt => ?_⟩
  · rw [ObjectType.fixed_size_bits, harch, hx]
  · rw [ObjectType.fixed_size_bits, harch, hx]
    simp [hge]
  · rw [ObjectType.fixed_size_bits, harch, hx]
    simp [Nat.not_le.mpr hlt]

/-- Witness for C9 at xsave sizes absent, 832 and 512. -/
theorem c9_witness :
    ObjectType.Tcb.fixed_size_bits cfgX86 = some (some 11) ∧
    ObjectType.Tcb.fixed_size_bits (cfgX86Xsave 832) = some (some 12) ∧
    ObjectType.Tcb.fixed_size_bits (cfgX86Xsave 512) = some (some 11) :=
  ⟨(c9_tcb_size_x86 cfgX86 rfl).1 rfl,
   (c9_tcb_size_x86 (cfgX86Xsave 832) rfl).2.1 832 rfl (by decide),
   (c9_tcb_size_x86 (cfgX86Xsave 512) rfl).2.2 512 rfl (by decide)⟩

/-- Claim C10: `optimal_page_size(0)` returns 0x200000 — zero is treated
as aligned to the largest page size and does not hit the failure
branch. -/
theorem c10_optimal_page_size_zero (c : Config) :
    c.optimal_page_size 0 = some 0x200000 := by
  cases harch : c.arch <;>
    simp [Config.optimal_page_size, Config.page_sizes, findAlignedPageSize, harch]

/-- Claim C6: for a `TcbWriteRegisters` invocation on the RISC-V
configuration with registers in the `Riscv64Regs` order, the plain
arguments are one word with the resume flag in bit 0 and the
`arch_flags` byte in bits 8 to 15, then the register count word, then
exactly 32 register values in the fixed order
pc, ra, sp, gp, s0..s11, a0..a7, t0..t6, tp. -/
theorem c6_tcb_write_registers_riscv (c : Config) (tcb : Nat) (resume : Bool)
    (arch_flags count : Nat) (r : Riscv64Regs)
    (_harch : c.arch = Arch.Riscv64) (_hb : arch_flags < 256) :
    ∃ flags,
      InvocationArgs.get_args
        (InvocationArgs.TcbWriteRegisters tcb resume arch_flags count r.field_names) c
        = some (tcb, flags :: count ::
            [r.pc, r.ra, r.sp, r.gp, r.s0, r.s1, r.s2, r.s3, r.s4, r.s5, r.s6, r.s7,
             r.s8, r.s9, r.s10, r.s11, r.a0, r.a1, r.a2, r.a3, r.a4, r.a5, r.a6, r.a7,
             r.t0, r.t1, r.t2, r.t3, r.t4, r.t5, r.t6, r.tp], []) ∧
      flags % 2 = (if resume then 1 else 0) ∧
      flags >>> 8 = arch_flags := by
  refine ⟨arch_flags <<< 8 ||| (if resume then 1 else 0), ?_, ?_, ?_⟩
  · simp [InvocationArgs.get_args, Riscv64Regs.field_names]
  · cases resume with
    | true =>
      have h8 : arch_flags <<< 8 = (arch_flags <<< 7) <<< 1 := by
        rw [← Nat.shiftLeft_add]
      have hm := shiftLeft_lor_mod (arch_flags <<< 7) 1 1 (by omega)
      rw [if_pos rfl, h8]
      exact hm
    | false =>
      rw [if_neg (by simp), Nat.or_zero, Nat.shiftLeft_eq]
      omega
  · exact shiftLeft_lor_shiftRight arch_flags _ 8 (by cases resume <;> simp)

/-- Concrete register file for the C6 witness. -/
def regsEx : Riscv64Regs :=
  { pc := 1, ra := 2, sp := 3, gp := 4, s0 := 5, s1 := 6, s2 := 7, s3 := 8,
    s4 := 9, s5 := 10, s6 := 11, s7 := 12, s8 := 13, s9 := 14, s10 := 15,
    s11 := 16, a0 := 17, a1 := 18, a2 := 19, a3 := 20, a4 := 21, a5 := 22,
    a6 := 23, a7 := 24, t0 := 25, t1 := 26, t2 := 27, t3 := 28, t4 := 29,
    t5 := 30, t6 := 31, tp := 32 }

/-- Witness for C6 at a concrete RISC-V register write. -/
theorem c6_witness :
    cfgRiscv.arch = Arch.Riscv64 ∧ (0xAB : Nat) < 256 ∧
    ∃ flags,
      InvocationArgs.get_args
        (InvocationArgs.TcbWriteRegisters 16 true 0xAB 32 regsEx.field_names) cfgRiscv
        = some (16, flags :: 32 ::
            [1, 2, 3, 4, 5, 6, 7, 8, 9, 10, 11, 12, 13, 14, 15, 16, 17, 18, 19, 20,
             21, 22, 23, 24, 25, 26, 27, 28, 29, 30, 31, 32], []) ∧
      flags % 2 = (if true then 1 else 0) ∧
      flags >>> 8 = 0xAB :=
  ⟨rfl, by decide,
    c6_tcb_write_registers_riscv cfgRiscv 16 true 0xAB 32 regsEx rfl (by decide)⟩

/-- Claim C1: encoding appends, as little-endian 64-bit words, exactly
the tag word, the service capability, the extra-capability words in
declared order, then the plain-argument words in declared order; with a
repeat attached, the repeat's own service, extra-capability and
plain-argument words follow immediately, with no second tag word. -/
theorem c1_encoding_word_order (inv : Invocation) (c : Config) (data out : List Nat)
    (h : inv.add_raw_invocation c data = some out) :
    ∃ tag0 service args extra_caps,
      inv.args.get_args c = some (service, args, extra_caps) ∧
      Invocation.message_info_new inv.label_raw 0 extra_caps.length args.length
        = some tag0 ∧
      ((inv.repeatDesc = none ∧
          out = data ++ wordsLE ([tag0, service] ++ extra_caps ++ args)) ∨
        (∃ count rep rs ra re,
          inv.repeatDesc = some (count, rep) ∧
          rep.get_args c = some (rs, ra, re) ∧
          out = data ++ wordsLE ([tag0 ||| ((count - 1) <<< 32), service]
                  ++ extra_caps ++ args ++ ([rs] ++ re ++ ra)))) := by
  obtain ⟨lraw, iargs, irep⟩ := inv
  rw [Invocation.add_raw_invocation] at h
  rcases hga : iargs.get_args c with _ | ⟨service, args, extra_caps⟩
  · simp only [hga] at h
    exact Option.noConfusion h
  simp only [hga] at h
  rcases hmi : Invocation.message_info_new lraw 0 extra_caps.length args.length
      with _ | tag0
  · simp only [hmi] at h
    exact Option.noConfusion h
  simp only [hmi] at h
  refine ⟨tag0, service, args, extra_caps, rfl, hmi, ?_⟩
  rcases hrd : irep with _ | ⟨count, rep⟩
  · simp only [hrd] at h
    left
    refine ⟨rfl, ?_⟩
    obtain rfl := Option.some.inj h
    simp [extendWords_eq, wordsLE, List.append_assoc]
  · simp only [hrd] at h
    right
    by_cases hdisc : iargs.discriminant = rep.discriminant
    · simp only [if_pos hdisc] at h
      rcases hrga : rep.get_args c with _ | ⟨rs, ra, re⟩
      · simp only [hrga] at h
        exact Option.noConfusion h
      simp only [hrga] at h
      obtain rfl := Option.some.inj h
      refine ⟨count, rep, rs, ra, re, rfl, hrga, ?_⟩
      simp [extendWords_eq, wordsLE, List.append_assoc]
    · simp only [if_neg hdisc] at h
      exact Option.noConfusion h

/-- The C1 witness invocation: a `TcbSetIpcBuffer` with one plain
argument and one extra capability. -/
def invC1 : Invocation :=
  { label_raw := 6, args := InvocationArgs.TcbSetIpcBuffer 0x100 0x200 0x300 }

/-- Witness for C1 at a concrete `TcbSetIpcBuffer` invocation. -/
theorem c1_witness :
    invC1.add_raw_invocation cfgRiscv [] = some (wordsLE [0x6081, 0x100, 0x300, 0x200]) ∧
    ∃ tag0 service args extra_caps,
      invC1.args.get_args cfgRiscv = some (service, args, extra_caps) ∧
      Invocation.message_info_new invC1.label_raw 0 extra_caps.length args.length
        = some tag0 ∧
      ((invC1.repeatDesc = none ∧
          wordsLE [0x6081, 0x100, 0x300, 0x200]
            = [] ++ wordsLE ([tag0, service] ++ extra_caps ++ args)) ∨
        (∃ count rep rs ra re,
          invC1.repeatDesc = some (count, rep) ∧
          rep.get_args cfgRiscv = some (rs, ra, re) ∧
          wordsLE [0x6081, 0x100, 0x300, 0x200]
            = [] ++ wordsLE ([tag0 ||| ((count - 1) <<< 32), service]
                ++ extra_caps ++ args ++ ([rs] ++ re ++ ra)))) :=
  ⟨by decide,
    c1_encoding_word_order invC1 cfgRiscv [] (wordsLE [0x6081, 0x100, 0x300, 0x200])
      (by decide)⟩

/-- Counterexample to claim C2 as stated: with raw label 2^20 (the
label's bits at and above bit 32 of the shifted tag are nonzero) and a
repeat of count 3, bits 32 to 63 of the emitted tag word are 3, not
N − 1 = 2, because the count is OR-ed over the label's high bits. -/
def invC2cex : Invocation :=
  { label_raw := 1048576, args := InvocationArgs.TcbResume 0x1000 }

/-- The C2 counterexample invocation after attaching the repeat. -/
def invC2cexN : Invocation :=
  { invC2cex with repeatDesc := some (3, InvocationArgs.TcbResume 0x2000) }

/-- Counterexample for C2: the claim's "bits 32 to 63 of the tag word
equal N − 1" fails at label_raw = 2^20, N = 3. -/
theorem c2_counterexample :
    invC2cex.repeat 3 (InvocationArgs.TcbResume 0x2000) = some invC2cexN ∧
    (invC2cexN.add_raw_invocation cfgRiscv []).isSome = true ∧
    wordAt ((invC2cexN.add_raw_invocation cfgRiscv []).getD []) 0 >>> 32 % 2 ^ 32
      ≠ 3 - 1 := by
  decide

/-- Claim C2 (amended): attaching a repeat with count 1 produces
byte-identical output to no repeat; for N > 1, provided the raw label
fits in 20 bits (so the shifted label leaves bits 32 to 63 of the tag
clear — in general the count is OR-ed over the label's high bits), the
encoding is one tag word followed by the base and repeat
service/extra-caps/args groups, with bits 32 and above of the tag equal
to N − 1. -/
theorem c2_repeat_encoding (inv : Invocation) (rargs : InvocationArgs) (c : Config)
    (data : List Nat) (N : Nat)
    (hnone : inv.repeatDesc = none) (hlabel : inv.label_raw < 2 ^ 20)
    (_hN32 : N < 2 ^ 32) :
    (∃ inv1, inv.repeat 1 rargs = some inv1 ∧
      inv1.add_raw_invocation c data = inv.add_raw_invocation c data) ∧
    (1 < N → ∀ invN out, inv.repeat N rargs = some invN →
      invN.add_raw_invocation c data = some out →
      ∃ tag0 service args extra_caps rs ra re,
        inv.args.get_args c = some (service, args, extra_caps) ∧
        rargs.get_args c = some (rs, ra, re) ∧
        Invocation.message_info_new inv.label_raw 0 extra_caps.length args.length
          = some tag0 ∧
        out = data ++ wordsLE ([tag0 ||| ((N - 1) <<< 32), service]
                ++ extra_caps ++ args ++ ([rs] ++ re ++ ra)) ∧
        (tag0 ||| ((N - 1) <<< 32)) >>> 32 = N - 1) := by
  obtain ⟨lraw, iargs, irep⟩ := inv
  simp only at hnone hlabel
  subst hnone
  constructor
  · refine ⟨_, ?_, rfl⟩
    simp [Invocation.repeat]
  · intro hN1 invN out hrep henc
    rw [Invocation.repeat] at hrep
    simp only [Option.isNone_none, if_true, if_pos hN1] at hrep
    obtain rfl := (Option.some.inj hrep).symm
    rw [Invocation.add_raw_invocation] at henc
    rcases hga : iargs.get_args c with _ | ⟨service, args, extra_caps⟩
    · simp only [hga] at henc
      exact Option.noConfusion henc
    simp only [hga] at henc
    rcases hmi : Invocation.message_info_new lraw 0 extra_caps.length args.length
        with _ | tag0
    · simp only [hmi] at henc
      exact Option.noConfusion henc
    simp only [hmi] at henc
    by_cases hdisc : iargs.discriminant = rargs.discriminant
    · simp only [if_pos hdisc] at henc
      rcases hrga : rargs.get_args c with _ | ⟨rs, ra, re⟩
      · simp only [hrga] at henc
        exact Option.noConfusion henc
      simp only [hrga] at henc
      obtain rfl := Option.some.inj henc
      refine ⟨tag0, service, args, extra_caps, rs, ra, re, rfl, rfl, hmi, ?_, ?_⟩
      · simp [extendWords_eq, wordsLE, List.append_assoc]
      · rw [Invocation.message_info_new] at hmi
        split at hmi
        · obtain rfl := Option.some.inj hmi
          rw [message_info_shape]
          have h1 : lraw <<< 5 < 2 ^ 25 := shiftLeft_lt_pow _ 20 5 hlabel
          have h2 : lraw <<< 5 ||| extra_caps.length < 2 ^ 25 :=
            Nat.or_lt_two_pow h1 (by omega)
          have h3 : (lraw <<< 5 ||| extra_caps.length) <<< 7 < 2 ^ 32 :=
            shiftLeft_lt_pow _ 25 7 h2
          have h4 : (lraw <<< 5 ||| extra_caps.length) <<< 7 ||| args.length < 2 ^ 32 :=
            Nat.or_lt_two_pow h3 (by omega)
          rw [Nat.lor_comm]
          exact shiftLeft_lor_shiftRight (N - 1) _ 32 h4
        · exact Option.noConfusion hmi
    · simp only [if_neg hdisc] at henc
      exact Option.noConfusion henc

/-- The C2 witness base invocation. -/
def invC2w : Invocation :=
  { label_raw := 5, args := InvocationArgs.TcbResume 0x1000 }

/-- Witness for C2 at label 5, count 3, RISC-V configuration. -/
theorem c2_witness :
    (∃ inv1, invC2w.repeat 1 (InvocationArgs.TcbResume 0x2000) = some inv1 ∧
      inv1.add_raw_invocation cfgRiscv [] = invC2w.add_raw_invocation cfgRiscv []) ∧
    ∃ tag0 service args extra_caps rs ra re,
      invC2w.args.get_args cfgRiscv = some (service, args, extra_caps) ∧
      (InvocationArgs.TcbResume 0x2000).get_args cfgRiscv = some (rs, ra, re) ∧
      Invocation.message_info_new invC2w.label_raw 0 extra_caps.length args.length
        = some tag0 ∧
      wordsLE [0x200005000, 0x1000, 0x2000]
        = [] ++ wordsLE ([tag0 ||| ((3 - 1) <<< 32), service]
            ++ extra_caps ++ args ++ ([rs] ++ re ++ ra)) ∧
      (tag0 ||| ((3 - 1) <<< 32)) >>> 32 = 3 - 1 :=
  ⟨(c2_repeat_encoding invC2w (InvocationArgs.TcbResume 0x2000) cfgRiscv [] 3
      rfl (by decide) (by decide)).1,
   (c2_repeat_encoding invC2w (InvocationArgs.TcbResume 0x2000) cfgRiscv [] 3
      rfl (by decide) (by decide)).2 (by decide)
      { invC2w with repeatDesc := some (3, InvocationArgs.TcbResume 0x2000) }
      (wordsLE [0x200005000, 0x1000, 0x2000]) (by decide) (by decide)⟩

/-- The C4 example base invocation. -/
def invC4 : Invocation :=
  { label_raw := 7, args := InvocationArgs.TcbResume 0x1000 }

/-- The C4 example after attaching a variant-mismatched repeat. -/
def invC4m : Invocation :=
  { invC4 with repeatDesc := some (2, InvocationArgs.AsidPoolAssign 1 2) }

/-- Counterexample for C4: `Invocation::repeat` accepts a repeat payload
whose variant differs from the base's — the mismatch is not rejected at
the point the repeat is attached (the encoder rejects it later). -/
theorem c4_counterexample :
    invC4.repeat 2 (InvocationArgs.AsidPoolAssign 1 2) = some invC4m ∧
    invC4m.add_raw_invocation cfgRiscv [] = none := by
  decide

/-- Claim C4 (amended): attaching a repeat whose `InvocationArgs` variant
differs from the base's succeeds in `Invocation::repeat` (which checks
only that no repeat is attached yet); the mismatch is rejected at
encoding time, where `add_raw_invocation` fails. -/
theorem c4_mismatch_rejected_at_encoding (inv : Invocation) (count : Nat)
    (rargs : InvocationArgs) (c : Config) (data : List Nat)
    (hnone : inv.repeatDesc = none) (hcount : 1 < count)
    (hmis : inv.args.discriminant ≠ rargs.discriminant) :
    ∃ inv2, inv.repeat count rargs = some inv2 ∧
      inv2.add_raw_invocation c data = none := by
  obtain ⟨lraw, iargs, irep⟩ := inv
  simp only at hnone hmis
  subst hnone
  refine ⟨{ label_raw := lraw, args := iargs, repeatDesc := some (count, rargs) },
    ?_, ?_⟩
  · rw [Invocation.repeat]
    simp only [Option.isNone_none, if_true, if_pos hcount]
  · rw [Invocation.add_raw_invocation]
    rcases hga : iargs.get_args c with _ | ⟨service, args, extra_caps⟩
    · simp only [hga]
    simp only [hga]
    rcases hmi : Invocation.message_info_new lraw 0 extra_caps.length args.length
        with _ | tag0
    · simp only [hmi]
    simp only [hmi, if_neg hmis]

/-- Witness for the amended C4 at a concrete mismatched pair. -/
theorem c4_witness :
    invC4.repeatDesc = none ∧ (1 : Nat) < 2 ∧
    invC4.args.discriminant ≠ (InvocationArgs.AsidPoolAssign 1 2).discriminant ∧
    ∃ inv2, invC4.repeat 2 (InvocationArgs.AsidPoolAssign 1 2) = some inv2 ∧
      inv2.add_raw_invocation cfgRiscv [] = none :=
  ⟨rfl, by decide, by decide,
    c4_mismatch_rejected_at_encoding invC4 2 (InvocationArgs.AsidPoolAssign 1 2)
      cfgRiscv [] rfl (by decide) (by decide)⟩

end Microkit
